import Mathlib

/-!
Verification development for the fratemix two-deck DJ mixing core.

The JavaScript sources are shallowly embedded over the rationals:
JavaScript numbers become rationals, arrays become lists, nullable
values become Option, and the React deck state becomes an explicit
record transformed by pure functions.  Each definition is translated
from the corresponding function of the repository, with source file
and line references given in the doc comments.
-/

namespace Fratemix

/-- Truncation toward zero, the rounding used by the JavaScript modulo
operator on numbers. -/
def jsTrunc (x : ℚ) : ℤ :=
  if 0 ≤ x then ⌊x⌋ else ⌈x⌉

/-- JavaScript remainder operator on numbers: a - b * trunc (a / b).
For a nonnegative dividend and positive divisor this is the usual
remainder. -/
def jsMod (a b : ℚ) : ℚ :=
  a - b * (jsTrunc (a / b) : ℚ)

/-- JavaScript Math.round: the integer nearest to x, half-way cases
rounded up, which equals the floor of x + 1/2. -/
def jsRound (x : ℚ) : ℤ :=
  ⌊x + 1 / 2⌋

/-! Beat-peak synchronizer: findNearestPeak from
src/hooks/useDeckAudio.js lines 176-191. -/

/-- Loop body of findNearestPeak: walk the peak list keeping the
current best peak, replacing it only on strictly smaller absolute
distance to the target time (so the first minimizer encountered is
kept).  Embeds the for-of loop at useDeckAudio.js lines 182-188. -/
def nearestLoop (targetTime : ℚ) : List ℚ → ℚ → ℚ
  | [], best => best
  | p :: rest, best =>
      if |p - targetTime| < |best - targetTime| then
        nearestLoop targetTime rest p
      else
        nearestLoop targetTime rest best

/-- findNearestPeak from useDeckAudio.js lines 176-191: none on an
empty peak list, otherwise the loop starting from the first peak and
scanning the whole list. -/
def findNearestPeak (targetTime : ℚ) (peaks : List ℚ) : Option ℚ :=
  match peaks with
  | [] => none
  | p :: rest => some (nearestLoop targetTime (p :: rest) p)

lemma nearestLoop_spec (t : ℚ) (l : List ℚ) :
    ∀ best : ℚ,
      (nearestLoop t l best = best ∧ ∀ x ∈ l, |best - t| ≤ |x - t|) ∨
      (∃ i : ℕ,
        l.get? i = some (nearestLoop t l best) ∧
        |nearestLoop t l best - t| < |best - t| ∧
        (∀ x ∈ l, |nearestLoop t l best - t| ≤ |x - t|) ∧
        ∀ j : ℕ, j < i → ∀ y : ℚ, l.get? j = some y →
          |nearestLoop t l best - t| < |y - t|) := by
  induction l with
  | nil =>
      intro best
      left
      exact ⟨rfl, by intro x hx; cases hx⟩
  | cons p rest ih =>
      intro best
      by_cases hp : |p - t| < |best - t|
      · have hred : nearestLoop t (p :: rest) best = nearestLoop t rest p := by
          rw [nearestLoop, if_pos hp]
        rcases ih p with ⟨heq, hmin⟩ | ⟨i, hget, hlt, hmin, hfirst⟩
        · right
          refine ⟨0, ?_, ?_, ?_, ?_⟩
          · rw [hred, heq]; rfl
          · rw [hred, heq]; exact hp
          · intro x hx
            rw [hred, heq]
            rcases List.mem_cons.mp hx with rfl | h
            · exact le_rfl
            · exact hmin x h
          · intro j hj y hy
            exact absurd hj (Nat.not_lt_zero j)
        · right
          refine ⟨i + 1, ?_, ?_, ?_, ?_⟩
          · rw [hred]
            simpa using hget
          · rw [hred]
            exact lt_trans hlt hp
          · intro x hx
            rw [hred]
            rcases List.mem_cons.mp hx with rfl | h
            · exact le_of_lt hlt
            · exact hmin x h
          · intro j hj y hy
            rw [hred]
            match j, hy with
            | 0, hy =>
                have hpy : p = y := by simpa using hy
                subst hpy
                exact hlt
            | j' + 1, hy =>
                have hy' : rest.get? j' = some y := by simpa using hy
                exact hfirst j' (by omega) y hy'
      · have hred : nearestLoop t (p :: rest) best = nearestLoop t rest best := by
          rw [nearestLoop, if_neg hp]
        rcases ih best with ⟨heq, hmin⟩ | ⟨i, hget, hlt, hmin, hfirst⟩
        · left
          refine ⟨by rw [hred, heq], ?_⟩
          intro x hx
          rcases List.mem_cons.mp hx with rfl | h
          · exact not_lt.mp hp
          · exact hmin x h
        · right
          refine ⟨i + 1, ?_, ?_, ?_, ?_⟩
          · rw [hred]
            simpa using hget
          · rw [hred]; exact hlt
          · intro x hx
            rw [hred]
            rcases List.mem_cons.mp hx with rfl | h
            · exact le_of_lt (lt_of_lt_of_le hlt (not_lt.mp hp))
            · exact hmin x h
          · intro j hj y hy
            rw [hred]
            match j, hy with
            | 0, hy =>
                have hpy : p = y := by simpa using hy
                subst hpy
                exact lt_of_lt_of_le hlt (not_lt.mp hp)
            | j' + 1, hy =>
                have hy' : rest.get? j' = some y := by simpa using hy
                exact hfirst j' (by omega) y hy'

/-- C1: findNearestPeak returns none on an empty list; on every
non-empty list it returns a peak of minimal absolute distance to the
target, and every peak at a strictly earlier position has strictly
greater distance (so ties are broken by the first peak encountered);
and on the concrete example, findNearestPeak 5 [1, 9/2, 9] = 9/2. -/
theorem findNearestPeak_correct :
    (∀ t : ℚ, findNearestPeak t [] = none) ∧
    (∀ (t : ℚ) (l : List ℚ), l ≠ [] →
      ∃ (q : ℚ) (i : ℕ),
        findNearestPeak t l = some q ∧
        l.get? i = some q ∧
        (∀ x ∈ l, |q - t| ≤ |x - t|) ∧
        ∀ j : ℕ, j < i → ∀ y : ℚ, l.get? j = some y → |q - t| < |y - t|) ∧
    findNearestPeak 5 [1, 9/2, 9] = some (9/2) := by
  have hconc : findNearestPeak 5 [1, 9/2, 9] = some (9/2) := by
    show some (nearestLoop 5 [1, 9/2, 9] 1) = some (9/2)
    rw [nearestLoop, if_neg (lt_irrefl _), nearestLoop,
      if_pos (by rw [show |(9:ℚ)/2 - 5| = 1/2 by norm_num [abs],
        show |(1:ℚ) - 5| = 4 by norm_num [abs]]; norm_num),
      nearestLoop,
      if_neg (by rw [show |(9:ℚ) - 5| = 4 by norm_num [abs],
        show |(9:ℚ)/2 - 5| = 1/2 by norm_num [abs]]; norm_num),
      nearestLoop]
  refine ⟨fun _ => rfl, ?_, hconc⟩
  intro t l hl
  match l with
  | p :: rest =>
      have hself : ¬ |p - t| < |p - t| := lt_irrefl _
      have hred : nearestLoop t (p :: rest) p = nearestLoop t rest p := by
        rw [nearestLoop, if_neg hself]
      rcases nearestLoop_spec t rest p with ⟨heq, hmin⟩ | ⟨i, hget, hlt, hmin, hfirst⟩
      · refine ⟨p, 0, ?_, rfl, ?_, ?_⟩
        · show some (nearestLoop t (p :: rest) p) = some p
          rw [hred, heq]
        · intro x hx
          rcases List.mem_cons.mp hx with rfl | h
          · exact le_rfl
          · exact hmin x h
        · intro j hj y hy
          exact absurd hj (Nat.not_lt_zero j)
      · refine ⟨nearestLoop t rest p, i + 1, ?_, ?_, ?_, ?_⟩
        · show some (nearestLoop t (p :: rest) p) = _
          rw [hred]
        · simpa using hget
        · intro x hx
          rcases List.mem_cons.mp hx with rfl | h
          · exact le_of_lt hlt
          · exact hmin x h
        · intro j hj y hy
          match j, hy with
          | 0, hy =>
              have hpy : p = y := by simpa using hy
              subst hpy
              exact hlt
          | j' + 1, hy =>
              have hy' : rest.get? j' = some y := by simpa using hy
              exact hfirst j' (by omega) y hy'

/-- Witness for findNearestPeak_correct: instantiating the non-empty
clause at target 5 and the list [1, 9/2, 9] yields the peak 9/2. -/
theorem findNearestPeak_correct_witness :
    ∃ (q : ℚ) (i : ℕ),
      findNearestPeak 5 [1, 9/2, 9] = some q ∧
      ([1, 9/2, 9] : List ℚ).get? i = some q ∧
      (∀ x ∈ ([1, 9/2, 9] : List ℚ), |q - 5| ≤ |x - 5|) ∧
      ∀ j : ℕ, j < i → ∀ y : ℚ, ([1, 9/2, 9] : List ℚ).get? j = some y →
        |q - 5| < |y - 5| :=
  findNearestPeak_correct.2.1 5 [1, 9/2, 9] (List.cons_ne_nil _ _)

/-! Tempo estimator: bpmDetector.js. -/

/-- Decoded PCM audio: a list of channels, each a list of sample
values, together with the sample rate.  Mirrors the Web Audio
AudioBuffer fields used by bpmDetector.js. -/
structure AudioBuffer where
  channels : List (List ℚ)
  sampleRate : ℚ

/-- Number of channels of the buffer. -/
def AudioBuffer.numberOfChannels (b : AudioBuffer) : ℕ :=
  b.channels.length

/-- Sample data of one channel, as read by getChannelData. -/
def AudioBuffer.channelData (b : AudioBuffer) (n : ℕ) : List ℚ :=
  b.channels.getD n []

/-- Sample count of the buffer, the Web Audio length property. -/
def AudioBuffer.sampleCount (b : AudioBuffer) : ℕ :=
  (b.channelData 0).length

/-- Duration in seconds; the Web Audio API guarantees
duration = length / sampleRate. -/
def AudioBuffer.duration (b : AudioBuffer) : ℚ :=
  (b.sampleCount : ℚ) / b.sampleRate

/-- averageChannels from bpmDetector.js lines 188-198: per-sample mean
of channels 0 and 1 over the length of channel 0. -/
def averageChannels (b : AudioBuffer) : List ℚ :=
  (List.range b.sampleCount).map
    (fun i => ((b.channelData 0).getD i 0 + (b.channelData 1).getD i 0) / 2)

/-- Insertion of a value into an ascending list, helper for the
sort below. -/
def insertAsc (x : ℚ) : List ℚ → List ℚ
  | [] => [x]
  | y :: ys => if x ≤ y then x :: y :: ys else y :: insertAsc x ys

/-- Ascending sort by value, modelling the JavaScript call
sort((a, b) => a - b) at bpmDetector.js line 166.  Over a linear
order every comparison sort produces the same output list, so
insertion sort is observationally identical to the engine sort. -/
def sortAscending : List ℚ → List ℚ
  | [] => []
  | x :: xs => insertAsc x (sortAscending xs)

/-- One step of the peak scan of findPeaksSimple (bpmDetector.js lines
170-180): at index i, accept a peak when the energy exceeds the
threshold, is a strict local maximum, and lies at least
minPeakDistance after the last accepted peak. -/
def findPeaksStep (values : List ℚ) (threshold : ℚ) (minPeakDistance : ℤ)
    (st : ℤ × List ℕ) (i : ℕ) : ℤ × List ℕ :=
  if values.getD i 0 > threshold ∧ values.getD i 0 > values.getD (i - 1) 0 ∧
      values.getD i 0 > values.getD (i + 1) 0 ∧ minPeakDistance ≤ (i : ℤ) - st.1 then
    ((i : ℤ), st.2 ++ [i])
  else st

/-- findPeaksSimple from bpmDetector.js lines 164-183: threshold at the
70th percentile of the sorted energies, minimum peak spacing of 0.3
seconds expressed in hops, greedy left-to-right scan over the interior
indices 1 .. length-2 starting from lastPeakIndex = -minPeakDistance. -/
def findPeaksSimple (values : List ℚ) (hopSamples : ℕ) (sampleRate : ℚ) : List ℕ :=
  let sortedValues := sortAscending values
  let threshold := sortedValues.getD (⌊(sortedValues.length : ℚ) * (7/10)⌋.toNat) 0
  let minPeakDistance : ℤ := ⌊3/10 * sampleRate / (hopSamples : ℚ)⌋
  ((List.range' 1 (values.length - 2)).foldl
    (findPeaksStep values threshold minPeakDistance) (-minPeakDistance, [])).2

/-- Channel data used by detectBPMFallback (bpmDetector.js lines
92-94): the stereo average when more than one channel exists, else
channel 0. -/
def fallbackChannelData (b : AudioBuffer) : List ℚ :=
  if 1 < b.numberOfChannels then averageChannels b else b.channelData 0

/-- Analysis window of at most the first 30 seconds
(bpmDetector.js line 98). -/
def analyzeDuration (b : AudioBuffer) : ℚ :=
  min 30 b.duration

/-- Number of samples analysed (bpmDetector.js line 99). -/
def maxSamples (b : AudioBuffer) : ℤ :=
  ⌊b.sampleRate * analyzeDuration b⌋

/-- Energy window of 100 ms in samples (bpmDetector.js line 102). -/
def windowSamples (b : AudioBuffer) : ℕ :=
  (⌊b.sampleRate * (1/10)⌋).toNat

/-- Hop of half a window (bpmDetector.js line 103). -/
def hopSamples (b : AudioBuffer) : ℕ :=
  windowSamples b / 2

/-- Number of iterations of the energy loop
for (i = 0; i < maxSamples - windowSize; i += hopSize): the count of
multiples of the hop below maxSamples - windowSize.  A zero hop makes
the source loop diverge, so realistically the hop is positive; the
embedding returns zero windows in that degenerate case. -/
def numWindows (b : AudioBuffer) : ℕ :=
  if hopSamples b = 0 then 0
  else ((maxSamples b - (windowSamples b : ℤ)).toNat + hopSamples b - 1) / hopSamples b

/-- Sum of squares of one window of samples
(bpmDetector.js lines 107-110). -/
def windowEnergy (data : List ℚ) (start w : ℕ) : ℚ :=
  ((List.range w).map (fun j => data.getD (start + j) 0 * data.getD (start + j) 0)).sum

/-- Windowed energies of the analysed prefix, each normalised by the
window size (bpmDetector.js lines 104-112). -/
def fallbackEnergyValues (b : AudioBuffer) : List ℚ :=
  (List.range (numWindows b)).map
    (fun k => windowEnergy (fallbackChannelData b) (k * hopSamples b) (windowSamples b)
      / (windowSamples b : ℚ))

/-- Accepted energy-peak indices of the fallback analysis
(bpmDetector.js line 115). -/
def fallbackPeaks (b : AudioBuffer) : List ℕ :=
  findPeaksSimple (fallbackEnergyValues b) (hopSamples b) b.sampleRate

/-- Inter-peak intervals in seconds restricted to [0.2, 2.0]
(bpmDetector.js lines 122-128). -/
def fallbackIntervals (b : AudioBuffer) : List ℚ :=
  (((fallbackPeaks b).zip (fallbackPeaks b).tail).map
    (fun pr => ((pr.2 : ℚ) - (pr.1 : ℚ)) * (hopSamples b : ℚ) / b.sampleRate)).filter
    (fun interval => decide (2/10 ≤ interval ∧ interval ≤ 2))

/-- Common-tempo snapping table (bpmDetector.js line 143). -/
def commonBPMs : List ℚ :=
  [120, 128, 125, 130, 140, 150, 160, 174]

/-- Snap to the first common tempo within 5 BPM, keeping the computed
value otherwise (bpmDetector.js lines 143-150; find? models the loop
with break). -/
def snapCommon (bpm : ℚ) : ℚ :=
  match commonBPMs.find? (fun c => decide (|bpm - c| < 5)) with
  | some c => c
  | none => bpm

/-- Fuel-indexed rendering of the loop while (bpm < 60) bpm *= 2
(bpmDetector.js line 139).  The fuel only bounds the iteration count;
at the call site the argument lies in [30, 300], where a single
doubling step already suffices, so the fuel is never exhausted. -/
def doubleWhileBelow60 : ℕ → ℚ → ℚ
  | 0, bpm => bpm
  | fuel + 1, bpm => if bpm < 60 then doubleWhileBelow60 fuel (bpm * 2) else bpm

/-- Fuel-indexed rendering of the loop while (bpm > 180) bpm /= 2
(bpmDetector.js line 140). -/
def halveWhileAbove180 : ℕ → ℚ → ℚ
  | 0, bpm => bpm
  | fuel + 1, bpm => if 180 < bpm then halveWhileAbove180 fuel (bpm / 2) else bpm

/-- Iteration budget for the two octave-correction loops, far above
what any reachable value needs. -/
def octaveLoopFuel : ℕ := 64

/-- estimateBPMFromDuration from bpmDetector.js lines 203-210: the
duration-based fallback table. -/
def estimateBPMFromDuration (duration : ℚ) : ℚ :=
  if duration < 120 then 128
  else if duration < 180 then 125
  else if duration < 240 then 122
  else if duration < 300 then 120
  else 120

/-- Conversion of the qualifying inter-peak intervals to a BPM value
(bpmDetector.js lines 134-154): mean interval, 60 / mean, the two
octave-correction loops, common-tempo snapping, and rounding to one
decimal. -/
def fallbackBPMFromIntervals (intervals : List ℚ) : ℚ :=
  let avgInterval := intervals.sum / (intervals.length : ℚ)
  let bpm0 := 60 / avgInterval
  let bpm1 := halveWhileAbove180 octaveLoopFuel (doubleWhileBelow60 octaveLoopFuel bpm0)
  ((jsRound (snapCommon bpm1 * 10)) : ℚ) / 10

/-- detectBPMFallback from bpmDetector.js lines 87-159 (the body of
the try block; in this pure embedding no exception can occur, and the
catch handler would return the same duration-based estimate): fewer
than 4 peaks or no qualifying interval fall back to the duration
table; otherwise the interval list is reduced as above. -/
def detectBPMFallback (b : AudioBuffer) : ℚ :=
  if (fallbackPeaks b).length < 4 then estimateBPMFromDuration b.duration
  else if fallbackIntervals b = [] then estimateBPMFromDuration b.duration
  else fallbackBPMFromIntervals (fallbackIntervals b)

/-- Outcome of the external realtime-bpm-analyzer library used by
detectBPM: either a detected tempo, or a failure (timeout, missing
data, or a thrown error).  The library is outside the repository, so
its result is a parameter of the embedding. -/
inductive AnalyzerOutcome where
  | detected (tempo : ℚ)
  | failed

/-- detectBPM from bpmDetector.js lines 15-81: a null or empty buffer
returns 120 before any analysis; otherwise a successful analyzer run
returns its tempo rounded to one decimal, and any failure falls back
to detectBPMFallback. -/
def detectBPM (analyzer : AnalyzerOutcome) (buffer : Option AudioBuffer) : ℚ :=
  match buffer with
  | none => 120
  | some b =>
      if b.sampleCount = 0 then 120
      else
        match analyzer with
        | .detected tempo => ((jsRound (tempo * 10)) : ℚ) / 10
        | .failed => detectBPMFallback b

/-! Lemmas about the tempo estimator. -/

lemma estimateBPMFromDuration_range (d : ℚ) :
    60 ≤ estimateBPMFromDuration d ∧ estimateBPMFromDuration d ≤ 180 := by
  unfold estimateBPMFromDuration
  split_ifs <;> norm_num

lemma list_length_mul_le_sum (l : List ℚ) (a : ℚ) (h : ∀ x ∈ l, a ≤ x) :
    (l.length : ℚ) * a ≤ l.sum := by
  induction l with
  | nil => simp
  | cons x xs ih =>
      have hx := h x (List.mem_cons_self x xs)
      have hxs := ih (fun y hy => h y (List.mem_cons_of_mem x hy))
      simp only [List.sum_cons, List.length_cons]
      push_cast
      linarith

lemma list_sum_le_length_mul (l : List ℚ) (a : ℚ) (h : ∀ x ∈ l, x ≤ a) :
    l.sum ≤ (l.length : ℚ) * a := by
  induction l with
  | nil => simp
  | cons x xs ih =>
      have hx := h x (List.mem_cons_self x xs)
      have hxs := ih (fun y hy => h y (List.mem_cons_of_mem x hy))
      simp only [List.sum_cons, List.length_cons]
      push_cast
      linarith

lemma fallbackIntervals_bounds (b : AudioBuffer) :
    ∀ x ∈ fallbackIntervals b, 2/10 ≤ x ∧ x ≤ 2 := by
  intro x hx
  unfold fallbackIntervals at hx
  have := (List.mem_filter.mp hx).2
  exact of_decide_eq_true this

lemma doubleWhileBelow60_of_ge (fuel : ℕ) (x : ℚ) (h : 60 ≤ x) :
    doubleWhileBelow60 fuel x = x := by
  cases fuel with
  | zero => rfl
  | succ fuel => simp only [doubleWhileBelow60, if_neg (not_lt.mpr h)]

lemma halveWhileAbove180_of_le (fuel : ℕ) (x : ℚ) (h : x ≤ 180) :
    halveWhileAbove180 fuel x = x := by
  cases fuel with
  | zero => rfl
  | succ fuel => simp only [halveWhileAbove180, if_neg (not_lt.mpr h)]

lemma doubleWhileBelow60_succ (fuel : ℕ) (x : ℚ) :
    doubleWhileBelow60 (fuel + 1) x =
      if x < 60 then doubleWhileBelow60 fuel (x * 2) else x := rfl

lemma halveWhileAbove180_succ (fuel : ℕ) (x : ℚ) :
    halveWhileAbove180 (fuel + 1) x =
      if 180 < x then halveWhileAbove180 fuel (x / 2) else x := rfl

lemma octaveCorrect_range (x : ℚ) (h30 : 30 ≤ x) (h300 : x ≤ 300) :
    60 ≤ halveWhileAbove180 octaveLoopFuel (doubleWhileBelow60 octaveLoopFuel x) ∧
    halveWhileAbove180 octaveLoopFuel (doubleWhileBelow60 octaveLoopFuel x) ≤ 180 := by
  have hfuel : octaveLoopFuel = 63 + 1 := rfl
  have hdouble :
      60 ≤ doubleWhileBelow60 octaveLoopFuel x ∧
      doubleWhileBelow60 octaveLoopFuel x ≤ 300 := by
    rw [hfuel, doubleWhileBelow60_succ]
    by_cases hx : x < 60
    · rw [if_pos hx, doubleWhileBelow60_of_ge 63 (x * 2) (by linarith)]
      constructor <;> linarith
    · rw [if_neg hx]
      exact ⟨not_lt.mp hx, h300⟩
  set y := doubleWhileBelow60 octaveLoopFuel x with hy
  rw [hfuel, halveWhileAbove180_succ]
  by_cases hgt : 180 < y
  · rw [if_pos hgt, halveWhileAbove180_of_le 63 (y / 2) (by linarith [hdouble.2])]
    constructor <;> linarith [hdouble.1, hdouble.2]
  · rw [if_neg hgt]
    exact ⟨hdouble.1, not_lt.mp hgt⟩

lemma snapCommon_range (x : ℚ) (h60 : 60 ≤ x) (h180 : x ≤ 180) :
    60 ≤ snapCommon x ∧ snapCommon x ≤ 180 := by
  unfold snapCommon
  cases hfind : commonBPMs.find? (fun c => decide (|x - c| < 5)) with
  | none => exact ⟨h60, h180⟩
  | some c =>
      have hc : c ∈ commonBPMs := List.mem_of_find?_eq_some hfind
      simp only [commonBPMs, List.mem_cons, List.not_mem_nil, or_false] at hc
      rcases hc with rfl | rfl | rfl | rfl | rfl | rfl | rfl | rfl <;> norm_num

lemma jsRound_div_range (x : ℚ) (h60 : 60 ≤ x) (h180 : x ≤ 180) :
    60 ≤ ((jsRound (x * 10)) : ℚ) / 10 ∧ ((jsRound (x * 10)) : ℚ) / 10 ≤ 180 := by
  unfold jsRound
  have hlb : (600 : ℤ) ≤ ⌊x * 10 + 1 / 2⌋ := by
    apply Int.le_floor.mpr
    push_cast
    linarith
  have hub : ⌊x * 10 + 1 / 2⌋ ≤ 1800 := by
    have hfl := Int.floor_le (x * 10 + 1 / 2)
    have hlt : ((⌊x * 10 + 1 / 2⌋ : ℤ) : ℚ) < 1801 := by linarith
    exact_mod_cast Int.lt_add_one_iff.mp (by exact_mod_cast hlt)
  have hlb' : (600 : ℚ) ≤ ((⌊x * 10 + 1 / 2⌋ : ℤ) : ℚ) := by exact_mod_cast hlb
  have hub' : ((⌊x * 10 + 1 / 2⌋ : ℤ) : ℚ) ≤ 1800 := by exact_mod_cast hub
  constructor <;> [linarith; linarith]

lemma fallbackBPMFromIntervals_range (l : List ℚ) (hne : l ≠ [])
    (hbd : ∀ x ∈ l, 2/10 ≤ x ∧ x ≤ 2) :
    60 ≤ fallbackBPMFromIntervals l ∧ fallbackBPMFromIntervals l ≤ 180 := by
  have hlen : (0 : ℚ) < (l.length : ℚ) := by
    have : l.length ≠ 0 := fun h => hne (List.length_eq_zero.mp h)
    exact_mod_cast Nat.pos_of_ne_zero this
  have havg : 2/10 ≤ l.sum / (l.length : ℚ) ∧ l.sum / (l.length : ℚ) ≤ 2 := by
    constructor
    · rw [le_div_iff₀ hlen]
      have := list_length_mul_le_sum l (2/10) (fun x hx => (hbd x hx).1)
      linarith
    · rw [div_le_iff₀ hlen]
      have := list_sum_le_length_mul l 2 (fun x hx => (hbd x hx).2)
      linarith
  have havg0 : 0 < l.sum / (l.length : ℚ) := lt_of_lt_of_le (by norm_num) havg.1
  have hbpm : 30 ≤ 60 / (l.sum / (l.length : ℚ)) ∧ 60 / (l.sum / (l.length : ℚ)) ≤ 300 := by
    constructor
    · rw [le_div_iff₀ havg0]
      linarith [havg.2]
    · rw [div_le_iff₀ havg0]
      linarith [havg.1]
  have hoct := octaveCorrect_range (60 / (l.sum / (l.length : ℚ))) hbpm.1 hbpm.2
  have hsnap := snapCommon_range _ hoct.1 hoct.2
  exact jsRound_div_range _ hsnap.1 hsnap.2

lemma detectBPMFallback_range (b : AudioBuffer) :
    60 ≤ detectBPMFallback b ∧ detectBPMFallback b ≤ 180 := by
  unfold detectBPMFallback
  split_ifs with h4 hnil
  · exact estimateBPMFromDuration_range b.duration
  · exact estimateBPMFromDuration_range b.duration
  · exact fallbackBPMFromIntervals_range (fallbackIntervals b) hnil (fallbackIntervals_bounds b)

/-- Buffer with no channels (length 0) at sample rate 20, used to
exercise the degenerate paths on a concrete input. -/
def nilBuf : AudioBuffer := ⟨[], 20⟩

/-- Buffer with a single one-sample channel at sample rate 20. -/
def oneBuf : AudioBuffer := ⟨[[1]], 20⟩

lemma nilBuf_peaks : fallbackPeaks nilBuf = [] := by
  have hw : windowSamples nilBuf = 2 := by
    show (⌊(20:ℚ) * (1/10)⌋).toNat = 2
    rw [show ⌊(20:ℚ) * (1/10)⌋ = 2 by norm_num]
    rfl
  have hh : hopSamples nilBuf = 1 := by
    show windowSamples nilBuf / 2 = 1
    rw [hw]
  have hm : maxSamples nilBuf = 0 := by
    show ⌊(20:ℚ) * analyzeDuration nilBuf⌋ = 0
    have hd : analyzeDuration nilBuf = 0 := by
      show min 30 (((0:ℕ):ℚ)/20) = 0
      norm_num
    rw [hd]
    norm_num
  have hn : numWindows nilBuf = 0 := by
    unfold numWindows
    rw [if_neg (by rw [hh]; norm_num), hh, hm, hw]
    rfl
  have he : fallbackEnergyValues nilBuf = [] := by
    unfold fallbackEnergyValues
    rw [hn]
    rfl
  unfold fallbackPeaks findPeaksSimple
  rw [he]
  rfl

lemma nilBuf_duration_table : estimateBPMFromDuration nilBuf.duration = 128 := by
  show estimateBPMFromDuration (((0:ℕ):ℚ)/20) = 128
  unfold estimateBPMFromDuration
  rw [if_pos (by norm_num)]

/-- C2: when the fallback analysis accepts fewer than 4 energy peaks,
or no inter-peak interval lies in [0.2, 2.0], detectBPMFallback
returns exactly the duration-based table value, and the table maps a
duration below 120 seconds to 128, below 180 to 125, below 240 to
122, and anything from 240 on to 120. -/
theorem fallback_duration_table :
    (∀ b : AudioBuffer, (fallbackPeaks b).length < 4 →
      detectBPMFallback b = estimateBPMFromDuration b.duration) ∧
    (∀ b : AudioBuffer, fallbackIntervals b = [] →
      detectBPMFallback b = estimateBPMFromDuration b.duration) ∧
    (∀ d : ℚ,
      (d < 120 → estimateBPMFromDuration d = 128) ∧
      (120 ≤ d → d < 180 → estimateBPMFromDuration d = 125) ∧
      (180 ≤ d → d < 240 → estimateBPMFromDuration d = 122) ∧
      (240 ≤ d → estimateBPMFromDuration d = 120)) := by
  refine ⟨?_, ?_, ?_⟩
  · intro b h
    unfold detectBPMFallback
    rw [if_pos h]
  · intro b h
    unfold detectBPMFallback
    by_cases h4 : (fallbackPeaks b).length < 4
    · rw [if_pos h4]
    · rw [if_neg h4, if_pos h]
  · intro d
    refine ⟨?_, ?_, ?_, ?_⟩ <;> intros <;> unfold estimateBPMFromDuration <;>
      split_ifs <;> first | rfl | linarith

/-- Witness for fallback_duration_table: the zero-length buffer has no
accepted peaks, so the estimate is the table value of its zero
duration, namely 128. -/
theorem fallback_duration_table_witness :
    (fallbackPeaks nilBuf).length < 4 ∧
    detectBPMFallback nilBuf = estimateBPMFromDuration nilBuf.duration ∧
    detectBPMFallback nilBuf = 128 := by
  have hlen : (fallbackPeaks nilBuf).length < 4 := by
    rw [nilBuf_peaks]
    norm_num
  have heq := fallback_duration_table.1 nilBuf hlen
  exact ⟨hlen, heq, by rw [heq, nilBuf_duration_table]⟩

/-- C3 (amended): the octave-correction invariant holds on the
internal fallback estimator, whose result always lies in [60, 180],
and on the null and empty-buffer paths, which return 120; but the
analyzer-success path of detectBPM returns the external tempo rounded
to one decimal with no octave correction applied. -/
theorem bpm_octave_range :
    (∀ b : AudioBuffer, 60 ≤ detectBPMFallback b ∧ detectBPMFallback b ≤ 180) ∧
    (∀ o : AnalyzerOutcome, detectBPM o none = 120) ∧
    (∀ (o : AnalyzerOutcome) (b : AudioBuffer), b.sampleCount = 0 →
      detectBPM o (some b) = 120) ∧
    (∀ b : AudioBuffer, b.sampleCount ≠ 0 →
      detectBPM .failed (some b) = detectBPMFallback b) ∧
    (∀ (tempo : ℚ) (b : AudioBuffer), b.sampleCount ≠ 0 →
      detectBPM (.detected tempo) (some b) = ((jsRound (tempo * 10)) : ℚ) / 10) := by
  refine ⟨detectBPMFallback_range, fun o => rfl, ?_, ?_, ?_⟩
  · intro o b h
    simp only [detectBPM]
    rw [if_pos h]
  · intro b h
    simp only [detectBPM]
    rw [if_neg h]
  · intro tempo b h
    simp only [detectBPM]
    rw [if_neg h]

/-- Witness for bpm_octave_range: instantiation of the hypothesis
clauses at the concrete buffers nilBuf and oneBuf. -/
theorem bpm_octave_range_witness :
    detectBPM .failed (some nilBuf) = 120 ∧
    detectBPM .failed (some oneBuf) = detectBPMFallback oneBuf ∧
    detectBPM (.detected 200) (some oneBuf) = ((jsRound ((200:ℚ) * 10)) : ℚ) / 10 :=
  ⟨bpm_octave_range.2.2.1 .failed nilBuf rfl,
   bpm_octave_range.2.2.2.1 oneBuf (by decide),
   bpm_octave_range.2.2.2.2 200 oneBuf (by decide)⟩

/-- Counterexample to C3 as stated: when the external analyzer
reports 200 BPM on a non-empty buffer, detectBPM returns 200, outside
[60, 180], with no doubling or halving applied. -/
theorem bpm_octave_range_counterexample :
    detectBPM (.detected 200) (some oneBuf) = 200 ∧
    ¬ (detectBPM (.detected 200) (some oneBuf) ≤ 180) := by
  have h : detectBPM (.detected 200) (some oneBuf) = 200 := by
    show ((jsRound ((200:ℚ) * 10)) : ℚ) / 10 = 200
    unfold jsRound
    norm_num
  rw [h]
  norm_num

/-- C10: detectBPM on a null buffer, or a buffer of length zero,
returns 120 no matter what the analyzer would say, short-circuiting
before any analysis; in particular it does not consult the
duration-based table, which at the empty buffer duration of zero
would give 128 instead. -/
theorem detectBPM_empty_default :
    (∀ o : AnalyzerOutcome, detectBPM o none = 120) ∧
    (∀ (o : AnalyzerOutcome) (b : AudioBuffer), b.sampleCount = 0 →
      detectBPM o (some b) = 120 ∧ estimateBPMFromDuration b.duration = 128) := by
  refine ⟨fun o => rfl, ?_⟩
  intro o b h
  constructor
  · simp only [detectBPM]
    rw [if_pos h]
  · have hd : b.duration = 0 := by
      unfold AudioBuffer.duration
      rw [h]
      norm_num
    rw [hd]
    unfold estimateBPMFromDuration
    rw [if_pos (by norm_num)]

/-- Witness for detectBPM_empty_default: the zero-length buffer with
a failed analyzer returns 120 while its table value is 128. -/
theorem detectBPM_empty_default_witness :
    detectBPM .failed (some nilBuf) = 120 ∧
    estimateBPMFromDuration nilBuf.duration = 128 :=
  detectBPM_empty_default.2 .failed nilBuf rfl

/-! Deck playback scheduler: useDeckAudio.js. -/

/-- Control state of one deck, the fields of useDeckAudio.js that the
transport operations read and write: presence flags for the decoded
buffer, the audio context and the active source node, the playing
flag (both the ref and the React state), the playback anchor
(startOffsetRef and loopStartTimeRef), the pending loop-restart
timeout delay in seconds (loopTimeoutRef, none when cleared), the
displayed time (currentTime state), the track duration, and the
loop, BPM and pitch parameters. -/
structure Deck where
  isLoaded : Bool
  hasBuffer : Bool
  hasContext : Bool
  sourceActive : Bool
  isPlayingRef : Bool
  isPlayingState : Bool
  startOffset : ℚ
  loopStartTime : ℚ
  loopTimeout : Option ℚ
  currentTime : ℚ
  duration : ℚ
  loopEnabled : Bool
  loopStart : ℚ
  loopLength : ℚ
  bpm : ℚ
  pitchValue : ℚ

/-- Playback rate from the pitch slider:
playbackRate = 1.0 + pitchValue / 100 (useDeckAudio.js line 355). -/
def playbackRateOf (d : Deck) : ℚ :=
  1 + d.pitchValue / 100

/-- Effective loop length in seconds (useDeckAudio.js lines 379-382):
beatDuration = 60 / bpm, loopDuration = loopLength * beatDuration,
loopEnd = min (loopStart + loopDuration) duration, and the actual
length is loopEnd - loopStart, so the loop end never exceeds the
track duration. -/
def actualLoopDuration (d : Deck) : ℚ :=
  min (d.loopStart + d.loopLength * (60 / d.bpm)) d.duration - d.loopStart

/-- createAndStartSource from useDeckAudio.js lines 329-427, as a
state transformation: a missing buffer or context returns unchanged;
otherwise the old source is stopped and a pending timeout cleared, a
new source becomes active, and when the loop is enabled with its
start inside the track a restart timeout of
(actualLoopDuration - offset mod actualLoopDuration) / playbackRate
seconds is scheduled (lines 389-402); finally startOffsetRef is set
to the offset and loopStartTimeRef to the current context time
(lines 424-426).  The audible start position passed to start() is
not part of the modelled control state. -/
def createAndStartSource (now offset : ℚ) (d : Deck) : Deck :=
  if d.hasBuffer = false ∨ d.hasContext = false then d
  else
    { d with
      sourceActive := true
      loopTimeout :=
        if d.loopEnabled = true ∧ 0 ≤ d.loopStart ∧ d.loopStart < d.duration then
          some ((actualLoopDuration d - jsMod offset (actualLoopDuration d)) /
            playbackRateOf d)
        else none
      startOffset := offset
      loopStartTime := now }

/-- seek from useDeckAudio.js lines 469-503: a no-op unless loaded
with a buffer; otherwise the target time is clamped to [0, duration],
the current source is stopped, any pending loop timeout is cleared,
the offset and displayed time are set to the clamped time, and if the
deck was playing the source is restarted at the clamped time. -/
def seek (now time : ℚ) (d : Deck) : Deck :=
  if d.isLoaded = false ∨ d.hasBuffer = false then d
  else
    let seekTime := max 0 (min time d.duration)
    let wasPlaying := d.isPlayingRef
    let d1 : Deck :=
      { d with
        sourceActive := false
        loopTimeout := none
        startOffset := seekTime
        currentTime := seekTime }
    if wasPlaying = true then
      createAndStartSource now seekTime
        { d1 with isPlayingRef := true, isPlayingState := true }
    else d1

/-- pause from useDeckAudio.js lines 508-530: the playing ref is
cleared; if a source is active the stored offset advances by the
elapsed context time since the anchor (with no clamping) and the
source is stopped; any pending loop timeout is cleared and the
playing state is cleared. -/
def pause (now : ℚ) (d : Deck) : Deck :=
  let d0 : Deck := { d with isPlayingRef := false }
  let d1 : Deck :=
    if d0.sourceActive = true then
      { d0 with
        startOffset := d0.startOffset + (now - d0.loopStartTime)
        sourceActive := false }
    else d0
  { d1 with loopTimeout := none, isPlayingState := false }

/-- One tick of the updateTime animation frame (useDeckAudio.js lines
656-675): when the context exists and the anchor time is truthy, the
displayed time becomes the anchored offset plus elapsed time, capped
at the duration. -/
def updateTimeTick (now : ℚ) (d : Deck) : Deck :=
  if d.hasContext = true ∧ d.loopStartTime ≠ 0 then
    { d with currentTime := min (d.startOffset + (now - d.loopStartTime)) d.duration }
  else d

/-- Deck used to exercise the loop scheduler on the concrete instance
of the loop invariant: BPM 120, loop of 4 beats starting at 10
seconds inside a 300 second track. -/
def loopDemoDeck (pv : ℚ) : Deck :=
  { isLoaded := true, hasBuffer := true, hasContext := true,
    sourceActive := false, isPlayingRef := false, isPlayingState := false,
    startOffset := 0, loopStartTime := 0, loopTimeout := none,
    currentTime := 0, duration := 300,
    loopEnabled := true, loopStart := 10, loopLength := 4,
    bpm := 120, pitchValue := pv }

/-- Playing demo deck on a 300 second track with a pending loop
timeout, anchored at context time 0. -/
def seekDemoDeck : Deck :=
  { isLoaded := true, hasBuffer := true, hasContext := true,
    sourceActive := true, isPlayingRef := true, isPlayingState := true,
    startOffset := 40, loopStartTime := 0, loopTimeout := some 7,
    currentTime := 40, duration := 300,
    loopEnabled := false, loopStart := 0, loopLength := 1,
    bpm := 128, pitchValue := 0 }

/-- C4: when a source starts with the loop enabled and the loop start
inside the track, the scheduled restart delay is
(actualLoopDuration - offset mod actualLoopDuration) / effectiveRate
with actualLoopDuration the beat-derived loop length clamped so the
loop end does not pass the track end; in particular with BPM 120, 4
beats, loop start 10 and offset 0 the delay is 2 / effectiveRate. -/
theorem loop_restart_schedule :
    (∀ (now offset : ℚ) (d : Deck),
      d.hasBuffer = true → d.hasContext = true →
      d.loopEnabled = true → 0 ≤ d.loopStart → d.loopStart < d.duration →
      (createAndStartSource now offset d).loopTimeout =
        some ((actualLoopDuration d - jsMod offset (actualLoopDuration d)) /
          (1 + d.pitchValue / 100)) ∧
      actualLoopDuration d =
        min (d.loopLength * (60 / d.bpm)) (d.duration - d.loopStart) ∧
      d.loopStart + actualLoopDuration d ≤ d.duration) ∧
    (∀ now pv : ℚ,
      (createAndStartSource now 0 (loopDemoDeck pv)).loopTimeout =
        some (2 / (1 + pv / 100))) := by
  have hgen : ∀ (now offset : ℚ) (d : Deck),
      d.hasBuffer = true → d.hasContext = true →
      d.loopEnabled = true → 0 ≤ d.loopStart → d.loopStart < d.duration →
      (createAndStartSource now offset d).loopTimeout =
        some ((actualLoopDuration d - jsMod offset (actualLoopDuration d)) /
          (1 + d.pitchValue / 100)) ∧
      actualLoopDuration d =
        min (d.loopLength * (60 / d.bpm)) (d.duration - d.loopStart) ∧
      d.loopStart + actualLoopDuration d ≤ d.duration := by
    intro now offset d hb hc hloop h0 hlt
    refine ⟨?_, ?_, ?_⟩
    · unfold createAndStartSource
      rw [if_neg (by simp [hb, hc])]
      show (if d.loopEnabled = true ∧ 0 ≤ d.loopStart ∧ d.loopStart < d.duration then
          some ((actualLoopDuration d - jsMod offset (actualLoopDuration d)) /
            playbackRateOf d)
        else none) = _
      rw [if_pos ⟨hloop, h0, hlt⟩]
      rfl
    · unfold actualLoopDuration
      rw [← min_sub_sub_right, add_sub_cancel_left]
    · unfold actualLoopDuration
      have := min_le_right (d.loopStart + d.loopLength * (60 / d.bpm)) d.duration
      linarith
  refine ⟨hgen, ?_⟩
  intro now pv
  have h := (hgen now 0 (loopDemoDeck pv) rfl rfl rfl
    (by norm_num [loopDemoDeck]) (by norm_num [loopDemoDeck])).1
  have ha : actualLoopDuration (loopDemoDeck pv) = 2 := by
    show min ((10:ℚ) + 4 * (60 / 120)) 300 - 10 = 2
    rw [show (10:ℚ) + 4 * (60 / 120) = 12 by norm_num]
    rw [min_eq_left (by norm_num)]
    norm_num
  have hm : jsMod 0 2 = 0 := by
    unfold jsMod jsTrunc
    norm_num
  rw [h, ha]
  rw [show (loopDemoDeck pv).pitchValue = pv from rfl, hm]
  norm_num

/-- Witness for loop_restart_schedule: the general clause evaluated at
the demo deck with pitch 0 and offset 0. -/
theorem loop_restart_schedule_witness :
    (createAndStartSource 5 0 (loopDemoDeck 0)).loopTimeout =
      some ((actualLoopDuration (loopDemoDeck 0) -
        jsMod 0 (actualLoopDuration (loopDemoDeck 0))) /
          (1 + (loopDemoDeck 0).pitchValue / 100)) ∧
    actualLoopDuration (loopDemoDeck 0) =
      min ((loopDemoDeck 0).loopLength * (60 / (loopDemoDeck 0).bpm))
        ((loopDemoDeck 0).duration - (loopDemoDeck 0).loopStart) ∧
    (loopDemoDeck 0).loopStart + actualLoopDuration (loopDemoDeck 0) ≤
      (loopDemoDeck 0).duration :=
  loop_restart_schedule.1 5 0 (loopDemoDeck 0) rfl rfl rfl
    (by norm_num [loopDemoDeck]) (by norm_num [loopDemoDeck])

lemma pause_fields (now : ℚ) (d : Deck) :
    pause now d =
      if d.sourceActive = true then
        { d with
          isPlayingRef := false, isPlayingState := false, loopTimeout := none,
          sourceActive := false,
          startOffset := d.startOffset + (now - d.loopStartTime) }
      else
        { d with isPlayingRef := false, isPlayingState := false, loopTimeout := none } := by
  rcases d with ⟨il, hbuf, hctx, sa, ipr, ips, so, lst, lt0, ct, dur, le, ls, ll, b, pv⟩
  cases sa
  · rfl
  · rfl

/-- C5: seek clamps its argument to [0, duration] and discards any
pending loop timeout (the result never depends on it); when the deck
is not playing it only stores the clamped offset; when playing it
re-anchors at the current context time, so the displayed time
immediately after the seek equals the clamped target, and a pause any
elapsed time later stores the clamped target plus exactly that
elapsed time. -/
theorem seek_clamps_and_reanchors :
    ∀ (now t : ℚ) (d : Deck),
      d.isLoaded = true → d.hasBuffer = true →
      ((∀ p : Option ℚ, seek now t { d with loopTimeout := p } = seek now t d) ∧
       (d.isPlayingRef = false →
         (seek now t d).startOffset = max 0 (min t d.duration) ∧
         (seek now t d).currentTime = max 0 (min t d.duration) ∧
         (seek now t d).loopTimeout = none) ∧
       (d.isPlayingRef = true → d.hasContext = true → 0 ≤ d.duration → now ≠ 0 →
         (seek now t d).startOffset = max 0 (min t d.duration) ∧
         (seek now t d).loopStartTime = now ∧
         (updateTimeTick now (seek now t d)).currentTime = max 0 (min t d.duration) ∧
         ∀ delta : ℚ, (pause (now + delta) (seek now t d)).startOffset =
           max 0 (min t d.duration) + delta)) := by
  intro now t d hl hb
  have hcond : ¬ (d.isLoaded = false ∨ d.hasBuffer = false) := by simp [hl, hb]
  refine ⟨?_, ?_, ?_⟩
  · intro p
    rcases d with ⟨il, hbuf, hctx, sa, ipr, ips, so, lst, lt0, ct, dur, le, ls, ll, b, pv⟩
    have hl2 : il = true := hl
    have hb2 : hbuf = true := hb
    subst hl2
    subst hb2
    rfl
  · intro hp
    simp only [seek]
    rw [if_neg hcond, if_neg (by simp [hp])]
    exact ⟨rfl, rfl, rfl⟩
  · intro hp hc hdur hnow
    have hseek : seek now t d =
        createAndStartSource now (max 0 (min t d.duration))
          { d with
            sourceActive := false, loopTimeout := none,
            startOffset := max 0 (min t d.duration),
            currentTime := max 0 (min t d.duration),
            isPlayingRef := true, isPlayingState := true } := by
      simp only [seek]
      rw [if_neg hcond, if_pos hp]
    have hcas : createAndStartSource now (max 0 (min t d.duration))
        { d with
          sourceActive := false, loopTimeout := none,
          startOffset := max 0 (min t d.duration),
          currentTime := max 0 (min t d.duration),
          isPlayingRef := true, isPlayingState := true } =
        { d with
          sourceActive := true
          loopTimeout :=
            if d.loopEnabled = true ∧ 0 ≤ d.loopStart ∧ d.loopStart < d.duration then
              some ((actualLoopDuration d -
                jsMod (max 0 (min t d.duration)) (actualLoopDuration d)) /
                  playbackRateOf d)
            else none
          startOffset := max 0 (min t d.duration)
          loopStartTime := now
          currentTime := max 0 (min t d.duration)
          isPlayingRef := true, isPlayingState := true } := by
      simp only [createAndStartSource]
      rw [if_neg (by simp [hb, hc])]
      rfl
    have hclamp : max 0 (min t d.duration) ≤ d.duration :=
      max_le hdur (min_le_right t d.duration)
    rw [hseek, hcas]
    refine ⟨rfl, rfl, ?_, ?_⟩
    · unfold updateTimeTick
      rw [if_pos ⟨hc, hnow⟩]
      show min (max 0 (min t d.duration) + (now - now)) d.duration = _
      rw [show max 0 (min t d.duration) + (now - now) = max 0 (min t d.duration) by ring]
      exact min_eq_left hclamp
    · intro delta
      rw [pause_fields, if_pos rfl]
      show max 0 (min t d.duration) + (now + delta - now) = _
      ring

/-- Witness for seek_clamps_and_reanchors: a playing demo deck sought
to time 500 of a 300 second track anchors at the clamped offset
300. -/
theorem seek_clamps_and_reanchors_witness :
    (seek 1 500 seekDemoDeck).startOffset = max 0 (min 500 seekDemoDeck.duration) ∧
    (seek 1 500 seekDemoDeck).loopStartTime = 1 ∧
    (updateTimeTick 1 (seek 1 500 seekDemoDeck)).currentTime =
      max 0 (min 500 seekDemoDeck.duration) ∧
    ∀ delta : ℚ, (pause (1 + delta) (seek 1 500 seekDemoDeck)).startOffset =
      max 0 (min 500 seekDemoDeck.duration) + delta :=
  (seek_clamps_and_reanchors 1 500 seekDemoDeck rfl rfl).2.2 rfl rfl
    (by norm_num [seekDemoDeck]) (by norm_num)

/-- C6 (amended): pause clears the playing ref and state and any
pending loop timeout; when a source is active the stored offset
becomes the anchored offset plus the elapsed context time, with no
clamping to the track duration; with no active source the offset is
unchanged. -/
theorem pause_stores_elapsed :
    ∀ (now : ℚ) (d : Deck),
      (pause now d).isPlayingRef = false ∧
      (pause now d).isPlayingState = false ∧
      (pause now d).loopTimeout = none ∧
      (d.sourceActive = true →
        (pause now d).startOffset = d.startOffset + (now - d.loopStartTime) ∧
        (pause now d).sourceActive = false) ∧
      (d.sourceActive = false → (pause now d).startOffset = d.startOffset) := by
  intro now d
  rcases d with ⟨il, hbuf, hctx, sa, ipr, ips, so, lst, lt0, ct, dur, le, ls, ll, b, pv⟩
  cases sa
  · exact ⟨rfl, rfl, rfl, fun h => Bool.noConfusion h, fun _ => rfl⟩
  · exact ⟨rfl, rfl, rfl, fun _ => ⟨rfl, rfl⟩, fun h => Bool.noConfusion h⟩

/-- Deck at stored offset 40 of a 50 second track, anchored at context
time 0 with an active source. -/
def pauseDemoDeck : Deck :=
  { isLoaded := true, hasBuffer := true, hasContext := true,
    sourceActive := true, isPlayingRef := true, isPlayingState := true,
    startOffset := 40, loopStartTime := 0, loopTimeout := some 7,
    currentTime := 40, duration := 50,
    loopEnabled := false, loopStart := 0, loopLength := 1,
    bpm := 128, pitchValue := 0 }

/-- Witness for pause_stores_elapsed: pausing the demo deck at context
time 20 stores offset 60 and clears the pending timeout. -/
theorem pause_stores_elapsed_witness :
    (pause 20 pauseDemoDeck).loopTimeout = none ∧
    (pause 20 pauseDemoDeck).startOffset =
      pauseDemoDeck.startOffset + (20 - pauseDemoDeck.loopStartTime) := by
  have h := pause_stores_elapsed 20 pauseDemoDeck
  exact ⟨h.2.2.1, (h.2.2.2.1 rfl).1⟩

/-- Counterexample to C6 as stated: pausing the demo deck at context
time 20 stores offset 40 + 20 = 60, which exceeds the 50 second track
duration, so the stored offset is not clamped to the duration. -/
theorem pause_no_clamp_counterexample :
    (pause 20 pauseDemoDeck).startOffset = 60 ∧
    pauseDemoDeck.duration = 50 ∧
    (pause 20 pauseDemoDeck).startOffset ≠
      min (pauseDemoDeck.startOffset + (20 - pauseDemoDeck.loopStartTime))
        pauseDemoDeck.duration := by
  have h : (pause 20 pauseDemoDeck).startOffset = 60 := by
    show (40:ℚ) + (20 - 0) = 60
    norm_num
  refine ⟨h, rfl, ?_⟩
  rw [h]
  show (60:ℚ) ≠ min ((40:ℚ) + (20 - 0)) 50
  rw [show (40:ℚ) + (20 - 0) = 60 by norm_num, min_eq_right (by norm_num)]
  norm_num

/-! Signal-chain parameter model: filter, crossfader and EQ kill. -/

/-- Filter kinds used by the main filter node of the deck. -/
inductive BiquadFilterType where
  | lowpass
  | highpass
  deriving DecidableEq

/-- State of the BiquadFilter node driven by the filter knob: its kind
and its cutoff frequency in Hz. -/
structure FilterNode where
  kind : BiquadFilterType
  frequency : ℚ
  deriving DecidableEq

/-- Initial filter node from initAudioContext (useDeckAudio.js lines
231-234): a lowpass at 20000 Hz. -/
def initialFilterNode : FilterNode :=
  { kind := .lowpass, frequency := 20000 }

/-- Filter update effect from useDeckAudio.js lines 586-603: a zero
knob sets only the frequency to 20000 and leaves the kind unchanged;
a negative knob sets a highpass with cutoff 20 + the absolute value
times 1980; a positive knob sets a lowpass with cutoff 20000 minus
the value times 19980. -/
def applyFilterValue (node : FilterNode) (filterValue : ℚ) : FilterNode :=
  if filterValue = 0 then { node with frequency := 20000 }
  else if filterValue < 0 then
    { kind := .highpass, frequency := 20 + |filterValue| * 1980 }
  else
    { kind := .lowpass, frequency := 20000 - filterValue * 19980 }

/-- Ideal magnitude response used to express the pass-through wording
of the spec: a lowpass passes the frequencies at or below its cutoff
and a highpass those at or above it. -/
def specPassesFrequency (node : FilterNode) (freq : ℚ) : Prop :=
  match node.kind with
  | .lowpass => freq ≤ node.frequency
  | .highpass => node.frequency ≤ freq

/-- Pass-through in the sense of the spec: nothing in the audible band
from 20 Hz to 20000 Hz is attenuated. -/
def specPassThrough (node : FilterNode) : Prop :=
  ∀ freq : ℚ, 20 ≤ freq → freq ≤ 20000 → specPassesFrequency node freq

/-- C7: the negative and positive branches of the filter effect set
the claimed high-pass and low-pass cutoffs; the zero branch sets the
maximum cutoff but keeps the previous filter kind, so it is
pass-through from the initial lowpass state, yet after a negative
knob value the zero position leaves a highpass at 20000 Hz, which is
not pass-through. -/
theorem filter_zero_keeps_kind :
    (∀ (node : FilterNode) (v : ℚ), v < 0 →
      applyFilterValue node v = { kind := .highpass, frequency := 20 + |v| * 1980 }) ∧
    (∀ (node : FilterNode) (v : ℚ), 0 < v →
      applyFilterValue node v = { kind := .lowpass, frequency := 20000 - v * 19980 }) ∧
    (∀ node : FilterNode, applyFilterValue node 0 = { node with frequency := 20000 }) ∧
    specPassThrough (applyFilterValue initialFilterNode 0) ∧
    applyFilterValue (applyFilterValue initialFilterNode (-1)) 0 =
      { kind := .highpass, frequency := 20000 } ∧
    ¬ specPassThrough (applyFilterValue (applyFilterValue initialFilterNode (-1)) 0) := by
  have hneg : ∀ (node : FilterNode) (v : ℚ), v < 0 →
      applyFilterValue node v = { kind := .highpass, frequency := 20 + |v| * 1980 } := by
    intro node v hv
    unfold applyFilterValue
    rw [if_neg (ne_of_lt hv), if_pos hv]
  have hstep : applyFilterValue (applyFilterValue initialFilterNode (-1)) 0 =
      { kind := .highpass, frequency := 20000 } := by
    rw [hneg initialFilterNode (-1) (by norm_num)]
    unfold applyFilterValue
    rw [if_pos rfl]
  refine ⟨hneg, ?_, ?_, ?_, hstep, ?_⟩
  · intro node v hv
    unfold applyFilterValue
    rw [if_neg (ne_of_gt hv), if_neg (not_lt.mpr (le_of_lt hv))]
  · intro node
    unfold applyFilterValue
    rw [if_pos rfl]
  · intro freq h20 h20000
    show specPassesFrequency { kind := .lowpass, frequency := 20000 } freq
    unfold specPassesFrequency
    exact h20000
  · intro hpt
    have := hpt 20 le_rfl (by norm_num)
    rw [hstep] at this
    unfold specPassesFrequency at this
    norm_num at this

/-- Witness for filter_zero_keeps_kind: the branch clauses evaluated
at the initial node with knob values -1 and 1/2. -/
theorem filter_zero_keeps_kind_witness :
    applyFilterValue initialFilterNode (-1) =
      { kind := .highpass, frequency := 20 + |(-1 : ℚ)| * 1980 } ∧
    applyFilterValue initialFilterNode (1/2) =
      { kind := .lowpass, frequency := 20000 - (1/2 : ℚ) * 19980 } :=
  ⟨filter_zero_keeps_kind.1 initialFilterNode (-1) (by norm_num),
   filter_zero_keeps_kind.2.1 initialFilterNode (1/2) (by norm_num)⟩

/-- Equal-power crossfade curve for deck A from the crossfader effect
of Mixer.jsx: cos of the crossfader position times pi over 2. -/
noncomputable def crossfaderCurveA (crossfader : ℝ) : ℝ :=
  Real.cos (crossfader * Real.pi / 2)

/-- Equal-power crossfade curve for deck B from the crossfader effect
of Mixer.jsx: sin of the crossfader position times pi over 2. -/
noncomputable def crossfaderCurveB (crossfader : ℝ) : ℝ :=
  Real.sin (crossfader * Real.pi / 2)

/-- C8: at position 0 deck A receives multiplier 1 and deck B 0, at
position 1 deck A receives 0 and deck B 1, and at the centre both
multipliers equal the square root of 2 over 2, within 1/10000 of
0.7071; the two curves always satisfy the equal-power identity. -/
theorem crossfader_equal_power :
    crossfaderCurveA 0 = 1 ∧ crossfaderCurveB 0 = 0 ∧
    crossfaderCurveA 1 = 0 ∧ crossfaderCurveB 1 = 1 ∧
    crossfaderCurveA (1/2) = Real.sqrt 2 / 2 ∧
    crossfaderCurveB (1/2) = Real.sqrt 2 / 2 ∧
    |crossfaderCurveA (1/2) - 0.7071| < 1/10000 ∧
    ∀ c : ℝ, crossfaderCurveA c ^ 2 + crossfaderCurveB c ^ 2 = 1 := by
  have ha2 : crossfaderCurveA (1/2) = Real.sqrt 2 / 2 := by
    unfold crossfaderCurveA
    rw [show (1/2 : ℝ) * Real.pi / 2 = Real.pi / 4 by ring]
    exact Real.cos_pi_div_four
  refine ⟨?_, ?_, ?_, ?_, ha2, ?_, ?_, ?_⟩
  · unfold crossfaderCurveA
    rw [show (0 : ℝ) * Real.pi / 2 = 0 by ring]
    exact Real.cos_zero
  · unfold crossfaderCurveB
    rw [show (0 : ℝ) * Real.pi / 2 = 0 by ring]
    exact Real.sin_zero
  · unfold crossfaderCurveA
    rw [show (1 : ℝ) * Real.pi / 2 = Real.pi / 2 by ring]
    exact Real.cos_pi_div_two
  · unfold crossfaderCurveB
    rw [show (1 : ℝ) * Real.pi / 2 = Real.pi / 2 by ring]
    exact Real.sin_pi_div_two
  · unfold crossfaderCurveB
    rw [show (1/2 : ℝ) * Real.pi / 2 = Real.pi / 4 by ring]
    exact Real.sin_pi_div_four
  · rw [ha2]
    rw [abs_lt]
    constructor <;>
      nlinarith [Real.sq_sqrt (show (0:ℝ) ≤ 2 by norm_num), Real.sqrt_nonneg 2]
  · intro c
    unfold crossfaderCurveA crossfaderCurveB
    exact Real.cos_sq_add_sin_sq (c * Real.pi / 2)

/-- One EQ band of the deck: the stored slider value in dB and the
kill flag, the two React states behind each of the three band
effects of useDeckAudio.js lines 536-580. -/
structure EqBand where
  db : ℚ
  kill : Bool

/-- Kill-flag setter: the setEqLowKill, setEqMidKill and setEqHighKill
state setters write only the flag. -/
def setBandKill (band : EqBand) (k : Bool) : EqBand :=
  { band with kill := k }

/-- Gain pushed to the band filter node by the effect: the silence
sentinel -100 dB when the kill flag is set, else the stored dB
value. -/
def appliedBandGain (band : EqBand) : ℚ :=
  if band.kill = true then -100 else band.db

/-- C9: a set kill flag forces the applied gain to the silence
sentinel whatever the stored value; toggling the flag in either
direction never changes the stored dB value; and un-killing restores
exactly the gain that an unkilled band applies, the stored value. -/
theorem eq_kill_preserves_db :
    (∀ band : EqBand, band.kill = true → appliedBandGain band = -100) ∧
    (∀ (band : EqBand) (k : Bool), (setBandKill band k).db = band.db) ∧
    (∀ band : EqBand, appliedBandGain (setBandKill band false) = band.db) ∧
    (∀ band : EqBand, band.kill = false →
      appliedBandGain (setBandKill (setBandKill band true) false) =
        appliedBandGain band) := by
  refine ⟨?_, ?_, ?_, ?_⟩
  · intro band h
    unfold appliedBandGain
    rw [if_pos h]
  · intro band k
    rfl
  · intro band
    unfold appliedBandGain
    rw [if_neg (by simp [setBandKill])]
    rfl
  · intro band h
    unfold appliedBandGain
    rw [if_neg (by simp [setBandKill]), if_neg (by simp [h])]
    rfl

/-- Witness for eq_kill_preserves_db: a band stored at 5 dB is forced
to -100 while killed and returns to 5 dB when un-killed. -/
theorem eq_kill_preserves_db_witness :
    appliedBandGain ⟨5, true⟩ = -100 ∧
    (setBandKill ⟨5, false⟩ true).db = 5 ∧
    appliedBandGain (setBandKill (setBandKill ⟨5, false⟩ true) false) =
      appliedBandGain ⟨5, false⟩ :=
  ⟨eq_kill_preserves_db.1 ⟨5, true⟩ rfl,
   eq_kill_preserves_db.2.1 ⟨5, false⟩ true,
   eq_kill_preserves_db.2.2.2 ⟨5, false⟩ rfl⟩


end Fratemix
